import Mathlib

/-!
Verification development for the MERG_pico_servos repository.

Shallow embedding of the core program logic:
* `Servos`      — servos.py / servos_as_p.py (ServoSG90, ServoGroup); machine
                  integers are `Int` nanoseconds, Python `//` is `Int.fdiv`.
* `ServosNs`    — servos_as_ns.py (set_dc_ns clamp, motion_coords tables,
                  move_linear guards).
* `AsServo`     — as_servo.py (_motion_coords table).
* `Handshake`   — switches_as.py producer/consumer event protocol
                  (SwitchGroup.poll_switches + consume_switch_data), as a
                  labelled transition system whose atomic blocks are the
                  code segments between `await` suspension points.
* `HandshakeP`  — switches_as_p.py HwSwitchGroup.poll_switches variant.
* `HttpAs`      — http_as.py HttpServer.serve_client request parsing;
                  Python strings are `List Char`.
* `AsSwInput`   — as_sw_input.py HttpSwitches.serve_client request parsing.

Conventions: Python dictionaries are association lists in insertion order
(`dictSet` overwrites in place, appends fresh keys, matching dict update);
a function returning `Option`/a `none` result models a raised Python
exception; `sleep` calls are counted, not timed.  Degree parameters are
modelled as integers (every configuration in the repository uses integral
degrees), for which Python's `round` is the identity.
-/

namespace Servos

/-- servos.py class constants of ServoSG90. -/
def PW_MIN : Int := 500000

def PW_MAX : Int := 2500000

def NS_PER_DEGREE : Int := (PW_MAX - PW_MIN) / 180

def OFF : Int := 0

def ON : Int := 1

/-- degrees_to_ns: round(PW_MIN + degrees * NS_PER_DEGREE); exact on
integer degrees. -/
def degrees_to_ns (degrees : Int) : Int :=
  PW_MIN + degrees * NS_PER_DEGREE

/-- pw_in_range: clamp a pulse width into [PW_MIN, PW_MAX]. -/
def pw_in_range (pw : Int) : Int :=
  min (max pw PW_MIN) PW_MAX

/-- Whether move_servo's range guard admits a pulse width:
the source skips the write when `pw_ < PW_MIN or pw_ > PW_MAX`. -/
def pwOk (pw : Int) : Bool :=
  decide (PW_MIN ≤ pw) && decide (pw ≤ PW_MAX)

/-- move_servo: emits the duty_ns write only when the pulse width is in
range; out-of-range demands produce no write at all. -/
def move_servo_writes (pw : Int) : List Int :=
  if pwOk pw then [pw] else []

/-- ServoSG90 instance state (servos.py / servos_as_p.py): configured
off/on pulse widths, committed logical state and pulse width, and the
incremental-sweep parameters. -/
structure Servo where
  pin : Nat
  off_ns : Int
  on_ns : Int
  rotation_time_ms : Nat
  state : Option Int
  pw : Option Int
  x_inc : Nat
  x_steps : Nat
deriving DecidableEq, Repr

/-- ServoSG90.__init__: clamps the configured positions via pw_in_range,
leaves state and pw unset (None), x_inc = 1, x_steps = 100.  Construction
is total: no configuration is rejected. -/
def mkServo (pin : Nat) (off_deg on_deg : Int) (rotation_time_ms : Nat := 1000) : Servo :=
  { pin := pin
    off_ns := pw_in_range (degrees_to_ns off_deg)
    on_ns := pw_in_range (degrees_to_ns on_deg)
    rotation_time_ms := rotation_time_ms
    state := none
    pw := none
    x_inc := 1
    x_steps := 100 }

/-- set_off: pw := off_ns; move_servo(pw); state := OFF.  Returns the
updated servo and the emitted hardware writes. -/
def set_off (s : Servo) : Servo × List Int :=
  ({ s with pw := some s.off_ns, state := some OFF }, move_servo_writes s.off_ns)

/-- set_on: pw := on_ns; move_servo(pw); state := ON. -/
def set_on (s : Servo) : Servo × List Int :=
  ({ s with pw := some s.on_ns, state := some ON }, move_servo_writes s.on_ns)

/-- The successive values taken by self.pw inside the move_linear while
loop (`pw += pw_inc` each step); these are the arguments handed to
move_servo.  With x_inc = 1 the loop runs x_steps times. -/
def sweep_steps (pw_inc : Int) (pw : Int) : Nat → List Int
  | 0 => []
  | n + 1 => (pw + pw_inc) :: sweep_steps pw_inc (pw + pw_inc) n

/-- Result of one move_linear call: the updated servo object, the pulse
widths actually written to hardware (via move_servo), the values computed
and handed to move_servo during the loop, the number of sleep pauses, and
the Python return value (None on the early-return paths). -/
structure MoveResult where
  servo : Servo
  writes : List Int
  computed : List Int
  pauses : Nat
  ret : Option Int
deriving DecidableEq, Repr

/-- The early-return outcome of move_linear: servo untouched, nothing
written, no pauses, Python returns None. -/
def noopRes (s : Servo) : MoveResult :=
  ⟨s, [], [], 0, none⟩

/-- The incremental sweep of move_linear once a valid differing demand is
established: activate_pulse (move_servo at the committed pw), the stepped
loop, the final set_on/set_off commit, then MIN_SLEEP and zero_pulse.
`none` models the TypeError raised when self.pw is still None. -/
def move_sweep (s : Servo) (end_pw : Int) (toOn : Bool) : Option MoveResult :=
  match s.pw with
  | none => none
  | some pw0 =>
    let act := move_servo_writes pw0
    let pw_inc := Int.fdiv (end_pw - pw0) s.x_steps
    let comp := sweep_steps pw_inc pw0 s.x_steps
    let loopW := comp.filter pwOk
    let fin := if toOn then set_on s else set_off s
    some ⟨fin.1, act ++ loopW ++ fin.2, comp, s.x_steps + 1, fin.1.state⟩

/-- move_linear (servos.py lines 95-122, servos_as_p.py lines 101-127):
returns immediately if the demand equals the committed state or is neither
OFF nor ON; otherwise sweeps to the configured target pulse width. -/
def move_linear (s : Servo) (demand_state : Option Int) : Option MoveResult :=
  if demand_state = s.state then some (noopRes s)
  else if demand_state = some ON then move_sweep s s.on_ns true
  else if demand_state = some OFF then move_sweep s s.off_ns false
  else some (noopRes s)

/-- ServoGroup.servos: dictionary pin ↦ servo, as an association list. -/
abbrev Group := List (Nat × Servo)

/-- Dictionary lookup (first occurrence; keys are unique in a dict). -/
def alGet (g : Group) (k : Nat) : Option Servo :=
  match g with
  | [] => none
  | (k', s) :: rest => if k' = k then some s else alGet rest k

/-- Dictionary value overwrite for an existing key (no-op on absent key,
matching in-place mutation of the looked-up servo object). -/
def alSet (g : Group) (k : Nat) (v : Servo) : Group :=
  match g with
  | [] => []
  | (k', s) :: rest => if k' = k then (k', v) :: rest else (k', s) :: alSet rest k v

/-- ServoGroup.__init__ + initialise: build each servo from its
parameters, set it off, and zero the pulse. -/
def mkGroup (params : List (Nat × Int × Int × Nat)) : Group :=
  params.map fun p => (p.1, (set_off (mkServo p.1 p.2.1 p.2.2.1 p.2.2.2)).1)

/-- ServoGroup.update (servos.py lines 145-148): for each srv_id in the
demand dictionary, look the servo up (KeyError → none) and run
move_linear.  Returns the updated group and all hardware writes. -/
def update (g : Group) : List (Nat × Option Int) → Option (Group × List Int)
  | [] => some (g, [])
  | (k, v) :: rest =>
    match alGet g k with
    | none => none
    | some s =>
      match move_linear s v with
      | none => none
      | some r =>
        match update (alSet g k r.servo) rest with
        | none => none
        | some (g', w) => some (g', r.writes ++ w)

end Servos

namespace ServosNs

/-- servos_as_ns.py class constants of ServoSG90. -/
def PW_MIN : Int := 500000

def PW_MAX : Int := 2500000

def NS_PER_DEGREE : Int := (PW_MAX - PW_MIN) / 180

def OFF : Int := 0

def ON : Int := 1

/-- motion_coords (servos_as_ns.py lines 46-52): the built-in waypoint
tables, (time-percent, position-percent) segment ends. -/
def motion_coords : List (String × List (Nat × Nat)) :=
  [("linear", [(100, 100)]),
   ("overshoot", [(50, 110), (65, 120), (90, 90), (100, 100)]),
   ("bounce", [(50, 100), (62, 75), (75, 100), (88, 90), (100, 100)]),
   ("s_curve", [(25, 10), (75, 90), (100, 100)]),
   ("slowing", [(25, 54), (50, 81), (75, 95), (100, 100)])]

/-- set_dc_ns (servos_as_ns.py lines 108-113): clamp the demand into
[PW_MIN, PW_MAX] and write it; returns the value written to duty_ns. -/
def set_dc_ns (demand_ns : Int) : Int :=
  min (max demand_ns PW_MIN) PW_MAX

/-- ServoSG90 instance state for the servos_as_ns.py variant (this
variant keeps no persistent pw field; position is derived from state). -/
structure ServoN where
  pin : Nat
  off_ns : Int
  on_ns : Int
  transit_time_ms : Nat
  state : Option Int
  x_steps : Nat
  x_inc : Nat
deriving DecidableEq, Repr

/-- Python round-half-to-even of the rational a / b (b > 0): the
rounding used by round() on exact values. -/
def roundHalfEvenDiv (a : Int) (b : Int) : Int :=
  let q := Int.fdiv a b
  let r := a - q * b
  if 2 * r < b then q
  else if b < 2 * r then q + 1
  else if q % 2 = 0 then q else q + 1

/-- The loop of move_linear (servos_as_ns.py lines 152-162) tracked in
exact centi-nanoseconds: y += pw_inc where pw_inc = round((end-start)/
x_steps, 2); each step writes set_dc_ns(int(y)).  (The source computes y
in floating point; the model uses the exact two-decimal value.) -/
def sweep_ns (pw_inc_centi : Int) (y_centi : Int) : Nat → List Int
  | 0 => []
  | n + 1 =>
    set_dc_ns (Int.tdiv (y_centi + pw_inc_centi) 100) ::
      sweep_ns pw_inc_centi (y_centi + pw_inc_centi) n

/-- Result of a move_linear call in the servos_as_ns.py variant. -/
structure MoveResultN where
  servo : ServoN
  writes : List Int
  pauses : Nat
  ret : Option Int
deriving DecidableEq, Repr

/-- activate_pulse (servos_as_ns.py lines 125-130): write on_ns when the
state is ON, else off_ns, clamped through set_dc_ns. -/
def activate_pulse_write (s : ServoN) : Int :=
  if s.state = some ON then set_dc_ns s.on_ns else set_dc_ns s.off_ns

/-- move_linear (servos_as_ns.py lines 136-167): early return (with no
write and no state change) when the demand equals the committed state or
is neither OFF nor ON; otherwise a clamped stepped sweep ending in
set_servo_on/off, MIN_SLEEP and zero_pulse.  The Python return value is
`ret` (None on the early-return paths, demand_state otherwise). -/
def move_linear_ns (s : ServoN) (demand_state : Option Int) : MoveResultN :=
  if demand_state = s.state then ⟨s, [], 0, none⟩
  else if demand_state = some ON then
    let start_pw := s.off_ns
    let end_pw := s.on_ns
    let pw_inc_centi := roundHalfEvenDiv ((end_pw - start_pw) * 100) s.x_steps
    let loopW := sweep_ns pw_inc_centi (start_pw * 100) s.x_steps
    ⟨{ s with state := some ON },
      activate_pulse_write s :: loopW ++ [set_dc_ns s.on_ns], s.x_steps + 1, some ON⟩
  else if demand_state = some OFF then
    let start_pw := s.on_ns
    let end_pw := s.off_ns
    let pw_inc_centi := roundHalfEvenDiv ((end_pw - start_pw) * 100) s.x_steps
    let loopW := sweep_ns pw_inc_centi (start_pw * 100) s.x_steps
    ⟨{ s with state := some OFF },
      activate_pulse_write s :: loopW ++ [set_dc_ns s.off_ns], s.x_steps + 1, some OFF⟩
  else ⟨s, [], 0, none⟩

end ServosNs

namespace AsServo

/-- _motion_coords (as_servo.py lines 29-34): the waypoint tables of the
as_servo.py variant. -/
def motion_coords : List (String × List (Nat × Nat)) :=
  [("linear", [(100, 100)]),
   ("bounce", [(50, 110), (65, 120), (90, 90), (100, 100)]),
   ("s_curve", [(25, 10), (75, 90), (100, 100)]),
   ("slowing", [(25, 54), (50, 81), (75, 95), (100, 100)])]

end AsServo

namespace WaypointSpec

/-- Time fractions strictly increasing along the table. -/
def timesStrictIncr : List (Nat × Nat) → Bool
  | [] => true
  | [_] => true
  | a :: b :: t => decide (a.1 < b.1) && timesStrictIncr (b :: t)

/-- Transcribed from the spec sentence under test (claim C5): both
coordinates lie in [0,100], time fractions strictly increasing, first
time fraction positive, terminal waypoint exactly (100,100). -/
def claimWellFormed (l : List (Nat × Nat)) : Bool :=
  (match l.head? with
   | some a => decide (0 < a.1)
   | none => false) &&
  timesStrictIncr l &&
  decide (l.getLast? = some (100, 100)) &&
  l.all (fun tp => decide (tp.1 ≤ 100) && decide (tp.2 ≤ 100))

/-- The amended well-formedness: as claimWellFormed, but position
fractions are only bounded by 120 (the overshoot-shaped tables
intentionally pass 100 before settling). -/
def amendedWellFormed (l : List (Nat × Nat)) : Bool :=
  (match l.head? with
   | some a => decide (0 < a.1)
   | none => false) &&
  timesStrictIncr l &&
  decide (l.getLast? = some (100, 100)) &&
  l.all (fun tp => decide (tp.1 ≤ 100) && decide (tp.2 ≤ 120))

end WaypointSpec

namespace Handshake

/-- A switch-state snapshot: dictionary pin ↦ 0/1 as produced by the
poll_switches comprehension. -/
abbrev Snap := List (Nat × Nat)

/-- Producer control points of SwitchGroup.poll_switches
(switches_as.py lines 44-53); the atomic blocks are delimited by the
await suspension points of the loop body. -/
inductive PPc where
  | scan
  | sleeping
  | waitReady
  | recording
deriving DecidableEq, Repr

/-- Consumer control points of consume_switch_data (switches_as.py test
driver / as_sw_servos.py main loop shape): set consumerReady, wait on
dataReady, clear dataReady, clear consumerReady, act on the snapshot. -/
inductive CPc where
  | setReady
  | waitInput
  | clearInput
  | clearReady
  | consume
deriving DecidableEq, Repr

/-- Joint system state: the producer-owned snapshot fields
(_switch_states, _previous_states), the two asyncio events, and both
control points. -/
structure Sys where
  switch_states : Option Snap
  previous_states : Option Snap
  ev_input : Bool
  ev_consumer_ready : Bool
  ppc : PPc
  cpc : CPc
deriving DecidableEq, Repr

/-- Scheduler actions: which task runs its next atomic block (the scan
action carries the values read from the pins). -/
inductive Act where
  | scanA (v : Snap)
  | sleepEndA
  | waitOkA
  | recordA
  | consumerA
deriving DecidableEq, Repr

/-- One atomic step of the cooperative system; `none` when the chosen
action is not enabled (wrong control point, or an event wait that would
suspend).  scanA: build the snapshot dictionary and set ev_input iff it
differs from _previous_states, then suspend in sleep_ms.  waitOkA: the
ev_consumer_ready.wait() call completes (requires the event set).
recordA: _previous_states = _switch_states, loop back to the scan. -/
def exec (s : Sys) : Act → Option Sys
  | .scanA v =>
    if s.ppc = .scan then
      some { s with
        switch_states := some v
        ev_input := if some v ≠ s.previous_states then true else s.ev_input
        ppc := .sleeping }
    else none
  | .sleepEndA =>
    if s.ppc = .sleeping then some { s with ppc := .waitReady } else none
  | .waitOkA =>
    if s.ppc = .waitReady ∧ s.ev_consumer_ready = true then
      some { s with ppc := .recording }
    else none
  | .recordA =>
    if s.ppc = .recording then
      some { s with previous_states := s.switch_states, ppc := .scan }
    else none
  | .consumerA =>
    match s.cpc with
    | .setReady => some { s with ev_consumer_ready := true, cpc := .waitInput }
    | .waitInput => if s.ev_input then some { s with cpc := .clearInput } else none
    | .clearInput => some { s with ev_input := false, cpc := .clearReady }
    | .clearReady => some { s with ev_consumer_ready := false, cpc := .consume }
    | .consume => some { s with cpc := .setReady }

/-- Run a sequence of scheduler actions. -/
def run (s : Sys) : List Act → Option Sys
  | [] => some s
  | a :: rest =>
    match exec s a with
    | none => none
    | some s' => run s' rest

/-- Initial state: no snapshot scanned or delivered yet, both events
clear, producer about to scan, consumer about to flag readiness. -/
def init : Sys :=
  ⟨none, none, false, false, .scan, .setReady⟩

/-- A state the system can reach from init. -/
def Reachable (s : Sys) : Prop :=
  ∃ acts, run init acts = some s

end Handshake

namespace HandshakeP

/-- Producer control points of HwSwitchGroup.poll_switches
(switches_as_p.py lines 48-58): sleep, scan, wait for consumer
readiness, then set ev_input unconditionally. -/
inductive PPc where
  | sleeping
  | scan
  | waitReady
  | signal
deriving DecidableEq, Repr

/-- Joint state for the switches_as_p.py variant (it keeps a
_previous_states field but never assigns it, so only the scanned
snapshot is modelled). -/
structure Sys where
  switch_states : Option Handshake.Snap
  ev_input : Bool
  ev_consumer_ready : Bool
  ppc : PPc
  cpc : Handshake.CPc
deriving DecidableEq, Repr

/-- Scheduler actions for the switches_as_p.py system. -/
inductive Act where
  | sleepEndA
  | scanA (v : Handshake.Snap)
  | waitOkA
  | signalA
  | consumerA
deriving DecidableEq, Repr

/-- One atomic step: the producer polls on a timer, scans, waits for
ev_consumer_ready, then sets ev_input with no comparison against any
previously delivered snapshot. -/
def exec (s : Sys) : Act → Option Sys
  | .sleepEndA =>
    if s.ppc = .sleeping then some { s with ppc := .scan } else none
  | .scanA v =>
    if s.ppc = .scan then some { s with switch_states := some v, ppc := .waitReady }
    else none
  | .waitOkA =>
    if s.ppc = .waitReady ∧ s.ev_consumer_ready = true then
      some { s with ppc := .signal }
    else none
  | .signalA =>
    if s.ppc = .signal then some { s with ev_input := true, ppc := .sleeping }
    else none
  | .consumerA =>
    match s.cpc with
    | .setReady => some { s with ev_consumer_ready := true, cpc := .waitInput }
    | .waitInput => if s.ev_input then some { s with cpc := .clearInput } else none
    | .clearInput => some { s with ev_input := false, cpc := .clearReady }
    | .clearReady => some { s with ev_consumer_ready := false, cpc := .consume }
    | .consume => some { s with cpc := .setReady }

/-- Run a sequence of scheduler actions. -/
def run (s : Sys) : List Act → Option Sys
  | [] => some s
  | a :: rest =>
    match exec s a with
    | none => none
    | some s' => run s' rest

/-- Initial state of the switches_as_p.py system. -/
def init : Sys :=
  ⟨none, false, false, .sleeping, .setReady⟩

end HandshakeP

namespace PyStrOps

/-- A Python string, modelled as its character list. -/
abbrev PyStr := List Char

/-- str.split(sep) for a one-character separator, full split. -/
def splitOnCh (c : Char) : PyStr → List PyStr
  | [] => [[]]
  | x :: xs =>
    match splitOnCh c xs with
    | [] => [[]]
    | y :: ys => if x = c then [] :: y :: ys else (x :: y) :: ys

/-- sep.join(parts) for a one-character separator. -/
def intercalateCh (c : Char) : List PyStr → PyStr
  | [] => []
  | [p] => p
  | p :: rest => p ++ c :: intercalateCh c rest

/-- str.split(sep, 1): split at most once. -/
def split1Ch (c : Char) (s : PyStr) : List PyStr :=
  match splitOnCh c s with
  | [] => []
  | [a] => [a]
  | a :: rest => [a, intercalateCh c rest]

/-- str.find(pat) == 0, i.e. the string starts with the pattern. -/
def pyStartsWith : PyStr → PyStr → Bool
  | _, [] => true
  | [], _ :: _ => false
  | x :: xs, y :: ys => decide (x = y) && pyStartsWith xs ys

/-- Decimal value of a nonempty all-digit string. -/
def digitsVal? (s : PyStr) : Option Nat :=
  if s = [] then none
  else
    s.foldl
      (fun acc c =>
        match acc with
        | none => none
        | some n => if c.isDigit then some (n * 10 + (c.toNat - 48)) else none)
      (some 0)

/-- int(str): optional sign followed by decimal digits; `none` models
the ValueError raised on anything else. -/
def pyInt? : PyStr → Option Int
  | '-' :: rest => (digitsVal? rest).map fun n => -(n : Int)
  | '+' :: rest => (digitsVal? rest).map fun n => (n : Int)
  | s => (digitsVal? s).map fun n => (n : Int)

/-- Python dict assignment d[k] = v: overwrite in place, append fresh
keys in insertion order. -/
def pyDictSet {α : Type} (d : List (PyStr × α)) (k : PyStr) (v : α) : List (PyStr × α) :=
  match d with
  | [] => [(k, v)]
  | (k', v') :: rest => if k' = k then (k, v) :: rest else (k', v') :: pyDictSet rest k v

/-- Python dict lookup d[k] (keys are unique after pyDictSet building). -/
def pyDictGet {α : Type} (d : List (PyStr × α)) (k : PyStr) : Option α :=
  match d with
  | [] => none
  | (k', v') :: rest => if k' = k then some v' else pyDictGet rest k

end PyStrOps

namespace HttpAs

open PyStrOps

/-- parse_parameters (http_as.py lines 147-155): take the text after the
first '?', split on '&', then each parameter on '='; `none` models the
IndexError (no '?') or the unpacking ValueError (a parameter whose split
on '=' does not have exactly two parts). -/
def parse_parameters (request : PyStr) : Option (List (PyStr × PyStr)) :=
  match split1Ch '?' request with
  | [_, ps] =>
    match (splitOnCh '&' ps).mapM
        (fun p =>
          match splitOnCh '=' p with
          | [k, v] => some (k, v)
          | _ => none) with
    | none => none
    | some pairs => some (pairs.foldl (fun d kv => pyDictSet d kv.1 kv.2) [])
  | _ => none

/-- set_v_switches (http_as.py lines 140-145): every parameter key that
is one of the fixed virtual-switch keys is applied with int(value);
other keys are skipped.  The Bool is false when int() raised (leaving
the states mutated up to that point). -/
def set_v_switches (keys : List PyStr) (states : List (PyStr × Int)) :
    List (PyStr × PyStr) → List (PyStr × Int) × Bool
  | [] => (states, true)
  | (k, v) :: rest =>
    if keys.contains k then
      match pyInt? v with
      | none => (states, false)
      | some n => set_v_switches keys (pyDictSet states k n) rest
    else set_v_switches keys states rest

/-- Outcome of one serve_client call: the virtual-switch states, whether
ev_input ended set, and (on the non-raising paths) whether the response
was the valid form; `err` models an uncaught exception. -/
inductive ServeOut where
  | ok (states : List (PyStr × Int)) (ev_set : Bool) (valid : Bool)
  | err (states : List (PyStr × Int)) (ev_set : Bool)
deriving DecidableEq, Repr

/-- parse_request (http_as.py lines 157-177): '/data' requests are
parsed and applied only when the '_id' parameter equals the served form
id, and only then is ev_input set; '/form' requests serve the form and
set ev_input without touching the states; any other path gets the
not-valid response with no mutation and no event. -/
def parse_request (keys : List PyStr) (form_id : PyStr) (states : List (PyStr × Int))
    (ev_input : Bool) (request : PyStr) : ServeOut :=
  if pyStartsWith request ("/data".data) then
    match parse_parameters request with
    | none => .err states ev_input
    | some params =>
      match pyDictGet params ("_id".data) with
      | none => .err states ev_input
      | some fid =>
        if fid = form_id then
          let r := set_v_switches keys states params
          if r.2 then .ok r.1 true true else .err r.1 ev_input
        else .ok states ev_input false
  else if pyStartsWith request ("/form".data) then
    .ok states true true
  else .ok states ev_input false

end HttpAs

namespace AsSwInput

open PyStrOps

/-- Python list item assignment states[index] = value, with negative
indices counting from the end; `none` models IndexError. -/
def set_v_sw (states : List Int) (index : Int) (value : Int) : Option (List Int) :=
  if 0 ≤ index ∧ index < states.length then
    some (states.set index.toNat value)
  else if -(states.length : Int) ≤ index ∧ index < 0 then
    some (states.set (states.length - (-index).toNat) value)
  else none

/-- The parameter loop of respond (as_sw_input.py lines 139-142): each
parameter is split once on '=', the key is stripped of its first
character and converted with int(), and the switch list is indexed with
no key validation; any failure (ValueError from int, IndexError from
the list write, a parameter without '=') raises. -/
def applyParams (states : List Int) : List PyStr → Option (List Int)
  | [] => some states
  | p :: rest =>
    match split1Ch '=' p with
    | [k, v] =>
      match pyInt? (k.drop 1), pyInt? v with
      | some idx, some val =>
        match set_v_sw states idx val with
        | none => none
        | some st' => applyParams st' rest
      | _, _ => none
    | _ => none

/-- respond (as_sw_input.py lines 134-143): parse the text after '?' and
apply every parameter. -/
def respond (states : List Int) (request : PyStr) : Option (List Int) :=
  match split1Ch '?' request with
  | [_, ds] => applyParams states (splitOnCh '&' ds)
  | _ => none

/-- serve_client (as_sw_input.py lines 116-166) routing: '/data'
requests run respond and set ev_input; '/form' requests serve the form
and set ev_input; anything else gets a null response with no event.
Returns the states and whether ev_input was set; `none` models an
uncaught exception inside respond. -/
def serve_client (states : List Int) (request : PyStr) : Option (List Int × Bool) :=
  if pyStartsWith request ("/data".data) then
    match respond states request with
    | none => none
    | some st' => some (st', true)
  else if pyStartsWith request ("/form".data) then
    some (states, true)
  else
    some (states, false)

end AsSwInput

namespace Concrete

open Servos

/-- A channel from the 45/135-degree demo configuration, committed ON. -/
def servoC3 : Servo := (set_on (mkServo 0 45 135 1000)).1

/-- A channel with off 0 and on 50 degrees, committed ON:
on_ns - off_ns = 555550 is not a multiple of x_steps = 100, so the OFF
sweep's floor-divided increment overshoots below PW_MIN. -/
def servoC4 : Servo := (set_on (mkServo 0 0 50 1000)).1

/-- The result of commanding servoC4 OFF. -/
def resC4 : MoveResult := (move_linear servoC4 (some OFF)).getD (noopRes servoC4)

/-- A committed-OFF channel with the 45/135 configured pulse widths and
a one-step sweep (x_inc 100), keeping witness trajectories short. -/
def servoC6 : Servo := ⟨0, 999995, 1999985, 1000, some 0, some 999995, 100, 1⟩

/-- servoC6 after the ON move. -/
def r1C6 : MoveResult :=
  ⟨⟨0, 999995, 1999985, 1000, some 1, some 1999985, 100, 1⟩,
    [999995, 1999985, 1999985], [1999985], 2, some 1⟩

/-- servoC6 after the ON move and then the OFF move. -/
def r2C6 : MoveResult :=
  ⟨⟨0, 999995, 1999985, 1000, some 0, some 999995, 100, 1⟩,
    [1999985, 999995, 999995], [999995], 2, some 0⟩

/-- Committed-OFF channel on pin 0 for the group-update witness. -/
def sC7A : Servo := ⟨0, 500000, 500100, 1000, some 0, some 500000, 100, 1⟩

/-- Committed-OFF channel on pin 2 for the group-update witness. -/
def sC7B : Servo := ⟨2, 600000, 700000, 1000, some 0, some 600000, 100, 1⟩

/-- A two-channel group. -/
def groupC7 : Group := [(0, sC7A), (2, sC7B)]

/-- Demand map: drive pin 0 to ON, pin 2 stays OFF. -/
def demandC7 : List (Nat × Option Int) := [(0, some 1), (2, some 0)]

/-- groupC7 after applying demandC7 once. -/
def groupC7' : Group :=
  [(0, ⟨0, 500000, 500100, 1000, some 1, some 500100, 100, 1⟩), (2, sC7B)]

/-- A one-channel group for the unknown-routing counterexample. -/
def groupC9 : Group := mkGroup [(0, 70, 110, 1000)]

/-- servos_as_ns.py channel, committed OFF, for the invalid-demand
witness. -/
def servoNC10 : ServosNs.ServoN := ⟨0, 999995, 1999985, 1000, some 0, 50, 2⟩

end Concrete

namespace ConcreteHs

open Handshake

/-- A waitOkA-free schedule of the switches_as.py system. -/
def actsC1 : List Act := [.consumerA, .scanA [(16, 0)], .sleepEndA]

/-- The state actsC1 reaches. -/
def sC1 : Sys := ⟨some [(16, 0)], none, true, true, .waitReady, .waitInput⟩

/-- A schedule completing one full producer iteration. -/
def actsC2 : List Act :=
  [.consumerA, .scanA [(16, 0)], .sleepEndA, .waitOkA, .recordA]

/-- The state actsC2 reaches: the scanned snapshot has been recorded as
delivered and the producer is back at the scan. -/
def sC2 : Sys := ⟨some [(16, 0)], some [(16, 0)], true, true, .scan, .waitInput⟩

/-- sC2 after rescanning the identical snapshot. -/
def sC2' : Sys :=
  ⟨some [(16, 0)], some [(16, 0)], true, true, .sleeping, .waitInput⟩

end ConcreteHs

namespace ConcreteHsP

open HandshakeP

/-- A schedule of the switches_as_p.py system: one full delivery of the
snapshot [(16, 0)], consumed and acknowledged, consumer ready again. -/
def actsP1 : List Act :=
  [.consumerA, .sleepEndA, .scanA [(16, 0)], .waitOkA, .signalA,
   .consumerA, .consumerA, .consumerA, .consumerA, .consumerA]

/-- The state actsP1 reaches: ev_input consumed and cleared. -/
def sP1 : Sys := ⟨some [(16, 0)], false, true, .sleeping, .waitInput⟩

/-- sP1 after the producer rescans the identical snapshot: ev_input is
raised again although nothing changed. -/
def sP2 : Sys := ⟨some [(16, 0)], true, true, .sleeping, .waitInput⟩

end ConcreteHsP

namespace Concrete

/-- The result of driving sC7A to ON. -/
def rC7A : Servos.MoveResult :=
  ⟨⟨0, 500000, 500100, 1000, some 1, some 500100, 100, 1⟩,
    [500000, 500100, 500100], [500100], 2, some 1⟩

end Concrete

namespace Servos

theorem pw_in_range_bounds (pw : Int) :
    PW_MIN ≤ pw_in_range pw ∧ pw_in_range pw ≤ PW_MAX := by
  refine ⟨le_min (le_max_right _ _) (by decide), min_le_right _ _⟩

theorem mem_move_servo_writes {w pw : Int} (h : w ∈ move_servo_writes pw) :
    PW_MIN ≤ w ∧ w ≤ PW_MAX := by
  unfold move_servo_writes at h
  by_cases hok : pwOk pw
  · rw [if_pos hok] at h
    rcases List.mem_singleton.mp h with rfl
    simpa [pwOk, decide_eq_true_eq] using hok
  · rw [if_neg hok] at h
    cases h

theorem move_linear_eq_state (s : Servo) (d : Option Int) (h : d = s.state) :
    move_linear s d = some (noopRes s) := by
  unfold move_linear
  rw [if_pos h]

theorem move_linear_invalid (s : Servo) (d : Option Int)
    (h0 : d ≠ some OFF) (h1 : d ≠ some ON) :
    move_linear s d = some (noopRes s) := by
  unfold move_linear
  by_cases h : d = s.state
  · rw [if_pos h]
  · rw [if_neg h, if_neg h1, if_neg h0]

theorem move_sweep_eq (s : Servo) (e : Int) (b : Bool) (pw0 : Int)
    (h : s.pw = some pw0) :
    move_sweep s e b = some
      ⟨(if b then set_on s else set_off s).1,
        move_servo_writes pw0 ++
          (sweep_steps (Int.fdiv (e - pw0) s.x_steps) pw0 s.x_steps).filter pwOk ++
          (if b then set_on s else set_off s).2,
        sweep_steps (Int.fdiv (e - pw0) s.x_steps) pw0 s.x_steps,
        s.x_steps + 1,
        (if b then set_on s else set_off s).1.state⟩ := by
  unfold move_sweep
  rw [h]

theorem move_linear_second (s : Servo) (d : Option Int) (r : MoveResult)
    (h : move_linear s d = some r) :
    move_linear r.servo d = some (noopRes r.servo) := by
  unfold move_linear at h
  by_cases h1 : d = s.state
  · rw [if_pos h1] at h
    cases h
    exact move_linear_eq_state _ _ h1
  · rw [if_neg h1] at h
    by_cases h2 : d = some ON
    · rw [if_pos h2] at h
      cases hpw : s.pw with
      | none =>
        unfold move_sweep at h
        rw [hpw] at h
        cases h
      | some pw0 =>
        rw [move_sweep_eq s s.on_ns true pw0 hpw] at h
        cases h
        apply move_linear_eq_state
        rw [h2]
        rfl
    · rw [if_neg h2] at h
      by_cases h3 : d = some OFF
      · rw [if_pos h3] at h
        cases hpw : s.pw with
        | none =>
          unfold move_sweep at h
          rw [hpw] at h
          cases h
        | some pw0 =>
          rw [move_sweep_eq s s.off_ns false pw0 hpw] at h
          cases h
          apply move_linear_eq_state
          rw [h3]
          rfl
      · rw [if_neg h3] at h
        cases h
        exact move_linear_invalid _ _ h3 h2

theorem mem_move_linear_writes {s : Servo} {d : Option Int} {r : MoveResult} {w : Int}
    (h : move_linear s d = some r) (hw : w ∈ r.writes) :
    PW_MIN ≤ w ∧ w ≤ PW_MAX := by
  unfold move_linear at h
  by_cases h1 : d = s.state
  · rw [if_pos h1] at h
    cases h
    cases hw
  · rw [if_neg h1] at h
    by_cases h2 : d = some ON
    · rw [if_pos h2] at h
      cases hpw : s.pw with
      | none =>
        unfold move_sweep at h
        rw [hpw] at h
        cases h
      | some pw0 =>
        rw [move_sweep_eq s s.on_ns true pw0 hpw] at h
        cases h
        simp only [List.mem_append] at hw
        rcases hw with (hw | hw) | hw
        · exact mem_move_servo_writes hw
        · have := (List.mem_filter.mp hw).2
          simpa [pwOk, decide_eq_true_eq] using this
        · exact mem_move_servo_writes hw
    · rw [if_neg h2] at h
      by_cases h3 : d = some OFF
      · rw [if_pos h3] at h
        cases hpw : s.pw with
        | none =>
          unfold move_sweep at h
          rw [hpw] at h
          cases h
        | some pw0 =>
          rw [move_sweep_eq s s.off_ns false pw0 hpw] at h
          cases h
          simp only [List.mem_append] at hw
          rcases hw with (hw | hw) | hw
          · exact mem_move_servo_writes hw
          · have := (List.mem_filter.mp hw).2
            simpa [pwOk, decide_eq_true_eq] using this
          · exact mem_move_servo_writes hw
      · rw [if_neg h3] at h
        cases h
        cases hw

theorem pwOk_of_bounds {p : Int} (h1 : PW_MIN ≤ p) (h2 : p ≤ PW_MAX) :
    pwOk p = true := by
  unfold pwOk
  rw [decide_eq_true h1, decide_eq_true h2]
  rfl

theorem move_servo_writes_eq {p : Int} (h1 : PW_MIN ≤ p) (h2 : p ≤ PW_MAX) :
    move_servo_writes p = [p] := by
  unfold move_servo_writes
  rw [if_pos (pwOk_of_bounds h1 h2)]

theorem getLast?_append_single {α : Type} (l : List α) (a : α) :
    (l ++ [a]).getLast? = some a := by
  exact List.getLast?_concat _

theorem move_linear_on (s : Servo) (pw0 : Int)
    (hstate : s.state = some OFF) (hpw : s.pw = some pw0) :
    move_linear s (some ON) = some
      ⟨(set_on s).1,
        move_servo_writes pw0 ++
          (sweep_steps (Int.fdiv (s.on_ns - pw0) s.x_steps) pw0 s.x_steps).filter pwOk ++
          (set_on s).2,
        sweep_steps (Int.fdiv (s.on_ns - pw0) s.x_steps) pw0 s.x_steps,
        s.x_steps + 1, (set_on s).1.state⟩ := by
  unfold move_linear
  rw [hstate, if_neg (by decide : ¬((some ON : Option Int) = some OFF)), if_pos rfl,
    move_sweep_eq s s.on_ns true pw0 hpw]
  rfl

theorem move_linear_off (s : Servo) (pw0 : Int)
    (hstate : s.state = some ON) (hpw : s.pw = some pw0) :
    move_linear s (some OFF) = some
      ⟨(set_off s).1,
        move_servo_writes pw0 ++
          (sweep_steps (Int.fdiv (s.off_ns - pw0) s.x_steps) pw0 s.x_steps).filter pwOk ++
          (set_off s).2,
        sweep_steps (Int.fdiv (s.off_ns - pw0) s.x_steps) pw0 s.x_steps,
        s.x_steps + 1, (set_off s).1.state⟩ := by
  unfold move_linear
  rw [hstate, if_neg (by decide : ¬((some OFF : Option Int) = some ON)),
    if_neg (by decide : ¬((some OFF : Option Int) = some ON)), if_pos rfl,
    move_sweep_eq s s.off_ns false pw0 hpw]
  rfl

theorem alGet_alSet_none {g : Group} {k k' : Nat} {x : Servo}
    (h : alGet g k = none) : alGet (alSet g k' x) k = none := by
  induction g with
  | nil => rfl
  | cons p rest ih =>
    obtain ⟨a, b⟩ := p
    unfold alGet at h
    by_cases hak : a = k
    · rw [if_pos hak] at h
      cases h
    · rw [if_neg hak] at h
      unfold alSet
      by_cases hak' : a = k'
      · rw [if_pos hak']
        unfold alGet
        rw [if_neg (hak' ▸ hak)]
        exact h
      · rw [if_neg hak']
        unfold alGet
        rw [if_neg hak]
        exact ih h

theorem update_unknown_key (g : Group) (demand : List (Nat × Option Int))
    (kv : Nat × Option Int) (hk : kv ∈ demand) (hmiss : alGet g kv.1 = none) :
    update g demand = none := by
  induction demand generalizing g with
  | nil => cases hk
  | cons hd rest ih =>
    obtain ⟨k', v'⟩ := hd
    rcases List.mem_cons.mp hk with heq | htail
    · unfold update
      cases heq
      rw [show alGet g k' = none from hmiss]
    · unfold update
      cases hget : alGet g k' with
      | none => rfl
      | some s =>
        dsimp only
        cases hml : move_linear s v' with
        | none => rfl
        | some r =>
          dsimp only
          rw [ih (alSet g k' r.servo) htail (alGet_alSet_none hmiss)]

end Servos

namespace ServosNs

theorem set_dc_ns_bounds (x : Int) :
    PW_MIN ≤ set_dc_ns x ∧ set_dc_ns x ≤ PW_MAX := by
  refine ⟨le_min (le_max_right _ _) (by decide), min_le_right _ _⟩

theorem mem_sweep_ns {w : Int} {pw_inc y : Int} {n : Nat}
    (h : w ∈ sweep_ns pw_inc y n) : ∃ z, w = set_dc_ns z := by
  induction n generalizing y with
  | zero => cases h
  | succ m ih =>
    unfold sweep_ns at h
    rcases List.mem_cons.mp h with rfl | htail
    · exact ⟨_, rfl⟩
    · exact ih htail

theorem move_linear_ns_invalid (sn : ServoN) (d : Option Int)
    (h0 : d ≠ some OFF) (h1 : d ≠ some ON) :
    move_linear_ns sn d = ⟨sn, [], 0, none⟩ := by
  unfold move_linear_ns
  by_cases h : d = sn.state
  · rw [if_pos h]
  · rw [if_neg h, if_neg h1, if_neg h0]

theorem mem_move_linear_ns_writes {sn : ServoN} {d : Option Int} {w : Int}
    (hw : w ∈ (move_linear_ns sn d).writes) :
    PW_MIN ≤ w ∧ w ≤ PW_MAX := by
  unfold move_linear_ns at hw
  by_cases h : d = sn.state
  · rw [if_pos h] at hw
    cases hw
  · rw [if_neg h] at hw
    by_cases h2 : d = some ON
    · rw [if_pos h2] at hw
      simp only [List.mem_cons, List.mem_append, List.mem_singleton] at hw
      rcases hw with (rfl | hw) | (rfl | hw)
      · unfold activate_pulse_write
        by_cases hs : sn.state = some ON
        · rw [if_pos hs]
          exact set_dc_ns_bounds _
        · rw [if_neg hs]
          exact set_dc_ns_bounds _
      · obtain ⟨z, rfl⟩ := mem_sweep_ns hw
        exact set_dc_ns_bounds z
      · exact set_dc_ns_bounds _
      · cases hw
    · rw [if_neg h2] at hw
      by_cases h3 : d = some OFF
      · rw [if_pos h3] at hw
        simp only [List.mem_cons, List.mem_append, List.mem_singleton] at hw
        rcases hw with (rfl | hw) | (rfl | hw)
        · unfold activate_pulse_write
          by_cases hs : sn.state = some ON
          · rw [if_pos hs]
            exact set_dc_ns_bounds _
          · rw [if_neg hs]
            exact set_dc_ns_bounds _
        · obtain ⟨z, rfl⟩ := mem_sweep_ns hw
          exact set_dc_ns_bounds z
        · exact set_dc_ns_bounds _
        · cases hw
      · rw [if_neg h3] at hw
        cases hw

end ServosNs

/-- C5 counterexample: the claim requires every waypoint coordinate to
lie in [0,100], but the 'overshoot' table of servos_as_ns.py contains
position fractions 110 and 120, as does the 'bounce' table of
as_servo.py, so the claimed well-formedness predicate fails on the
built-in profile tables. -/
theorem C5_cex :
    (ServosNs.motion_coords.all fun p => WaypointSpec.claimWellFormed p.2) = false ∧
    (AsServo.motion_coords.all fun p => WaypointSpec.claimWellFormed p.2) = false ∧
    WaypointSpec.claimWellFormed [(50, 110), (65, 120), (90, 90), (100, 100)] = false := by
  decide

/-- C5 amended: for every built-in motion profile table of
servos_as_ns.py and as_servo.py, time fractions lie in (0,100] and are
strictly increasing, the terminal waypoint is exactly (100,100), and
position fractions lie in [0,120] (the overshoot-shaped tables
intentionally pass 100 before settling). -/
theorem C5_amended_wellformed :
    (ServosNs.motion_coords.all fun p => WaypointSpec.amendedWellFormed p.2) = true ∧
    (AsServo.motion_coords.all fun p => WaypointSpec.amendedWellFormed p.2) = true := by
  decide

/-- C3 counterexample: with the channel committed ON, move_linear(ON)
does return immediately without a sweep, but its Python return value is
None (the bare `return` of servos.py line 98 / servos_as_p.py line 104),
not the already-committed state ON that the claim asserts. -/
theorem C3_cex :
    Servos.move_linear Concrete.servoC3 (some Servos.ON) =
      some (Servos.noopRes Concrete.servoC3) ∧
    (Servos.noopRes Concrete.servoC3).ret = none ∧
    Concrete.servoC3.state = some Servos.ON := by
  decide

/-- C3 amended: move(target) is idempotent — when the target equals the
committed logical state the call performs no hardware write and no step
pause and returns immediately, but it returns None rather than the
committed state; and after any completed call, an immediately repeated
call with the same target is such a no-op, so the physical sweep happens
at most once. -/
theorem C3_amended_idempotent (s : Servos.Servo) (d : Option Int) :
    (d = s.state → Servos.move_linear s d = some (Servos.noopRes s)) ∧
    (∀ r, Servos.move_linear s d = some r →
      Servos.move_linear r.servo d = some (Servos.noopRes r.servo)) :=
  ⟨fun h => Servos.move_linear_eq_state s d h,
   fun r h => Servos.move_linear_second s d r h⟩

/-- C3 witness: the no-op branch instantiated on the committed-ON demo
channel. -/
theorem C3_witness :
    Servos.move_linear Concrete.servoC3 (some Servos.ON) =
      some (Servos.noopRes Concrete.servoC3) :=
  (C3_amended_idempotent Concrete.servoC3 (some Servos.ON)).1 (by decide)

/-- C4 counterexample: the claim says out-of-range computed pulse widths
are clamped to the bound and written, never skipped.  On the channel
servoC4 (off 0, on 50 degrees) the OFF sweep's last loop step computes
499950 < PW_MIN; move_servo (servos.py lines 68-73) skips it, so only
101 writes are emitted where clamp-and-write semantics would emit 102
(activation + one write per the 100 computed loop values + final
commit). -/
theorem C4_cex :
    Servos.move_linear Concrete.servoC4 (some Servos.OFF) = some Concrete.resC4 ∧
    Concrete.resC4.computed.getLast? = some 499950 ∧
    (499950 : Int) < Servos.PW_MIN ∧
    Concrete.resC4.computed.length = 100 ∧
    Concrete.resC4.writes.length = 101 := by
  decide

/-- C4 amended: every pulse width actually handed to the hardware output
lies in [PW_MIN, PW_MAX] — in servos_as_ns.py because set_dc_ns clamps
every demanded value, in servos.py because move_servo refuses to write
out-of-range demands at all (it skips them rather than clamping, the
correction the counterexample forces). -/
theorem C4_amended_clamp_totality :
    (∀ (s : Servos.Servo) (d : Option Int) (r : Servos.MoveResult) (w : Int),
        Servos.move_linear s d = some r → w ∈ r.writes →
        Servos.PW_MIN ≤ w ∧ w ≤ Servos.PW_MAX) ∧
    (∀ x : Int,
        ServosNs.PW_MIN ≤ ServosNs.set_dc_ns x ∧ ServosNs.set_dc_ns x ≤ ServosNs.PW_MAX) ∧
    (∀ (sn : ServosNs.ServoN) (d : Option Int) (w : Int),
        w ∈ (ServosNs.move_linear_ns sn d).writes →
        ServosNs.PW_MIN ≤ w ∧ w ≤ ServosNs.PW_MAX) ∧
    (∀ p : Int, ¬(Servos.PW_MIN ≤ p ∧ p ≤ Servos.PW_MAX) →
        Servos.move_servo_writes p = []) :=
  ⟨fun _ _ _ _ h hw => Servos.mem_move_linear_writes h hw,
   fun x => ServosNs.set_dc_ns_bounds x,
   fun _ _ _ hw => ServosNs.mem_move_linear_ns_writes hw,
   fun p hp => by
     unfold Servos.move_servo_writes
     rw [if_neg]
     simpa [Servos.pwOk, decide_eq_true_eq] using hp⟩

/-- C4 witness: the in-range bound instantiated on a concrete emitted
write, and the skip branch instantiated at the out-of-range demand 0. -/
theorem C4_witness :
    (Servos.PW_MIN ≤ (500000 : Int) ∧ (500000 : Int) ≤ Servos.PW_MAX) ∧
    Servos.move_servo_writes 0 = [] :=
  ⟨C4_amended_clamp_totality.1 Concrete.sC7A (some 1) Concrete.rC7A 500000
      (by decide) (by decide),
   C4_amended_clamp_totality.2.2.2 0 (by decide)⟩

/-- C9 counterexample: ServoSG90.__init__ accepts the out-of-range
configuration (off -100, on 300 degrees) and silently clamps both
positions into [PW_MIN, PW_MAX] instead of refusing to start, and a
switch routing that references the unknown channel 5 passes group
construction untouched and only fails later, inside update() (the
runtime KeyError, modelled as none). -/
theorem C9_cex :
    (Servos.mkServo 0 (-100) 300 1000).off_ns = Servos.PW_MIN ∧
    Servos.degrees_to_ns (-100) = -611100 ∧
    (Servos.mkServo 0 (-100) 300 1000).off_ns ≠ Servos.degrees_to_ns (-100) ∧
    (Servos.mkServo 0 (-100) 300 1000).on_ns = Servos.PW_MAX ∧
    Servos.update Concrete.groupC9 [(5, some 1)] = none := by
  decide

/-- C9 amended: construction never fails — every configured position is
silently clamped into [PW_MIN, PW_MAX] by pw_in_range, and routing to an
unknown channel id is not detected at construction but only when
update() first dereferences it (KeyError at runtime). -/
theorem C9_amended_no_construction_check (pin : Nat) (off_deg on_deg : Int) (rt : Nat)
    (g : Servos.Group) (demand : List (Nat × Option Int)) (kv : Nat × Option Int)
    (hk : kv ∈ demand) (hmiss : Servos.alGet g kv.1 = none) :
    (Servos.PW_MIN ≤ (Servos.mkServo pin off_deg on_deg rt).off_ns ∧
     (Servos.mkServo pin off_deg on_deg rt).off_ns ≤ Servos.PW_MAX ∧
     Servos.PW_MIN ≤ (Servos.mkServo pin off_deg on_deg rt).on_ns ∧
     (Servos.mkServo pin off_deg on_deg rt).on_ns ≤ Servos.PW_MAX) ∧
    Servos.update g demand = none := by
  refine ⟨⟨(Servos.pw_in_range_bounds _).1, (Servos.pw_in_range_bounds _).2,
    (Servos.pw_in_range_bounds _).1, (Servos.pw_in_range_bounds _).2⟩, ?_⟩
  exact Servos.update_unknown_key g demand kv hk hmiss

/-- C9 witness: the amended statement instantiated at the -100/300
degree channel and the unknown-channel demand on a one-channel group. -/
theorem C9_witness :
    Servos.update Concrete.groupC9 [(5, some 0)] = none :=
  (C9_amended_no_construction_check 0 (-100) 300 1000 Concrete.groupC9
    [(5, some 0)] (5, some 0) (by decide) (by decide)).2

/-- C10 (implicit): for any demand value other than OFF and ON —
including None — move_linear returns immediately with no hardware write,
no pause, and no change to the channel's committed state or pulse-width
fields, in both the servos.py and the servos_as_ns.py variant. -/
theorem C10_invalid_demand_noop (sv : Servos.Servo) (sn : ServosNs.ServoN)
    (d : Option Int) (h0 : d ≠ some 0) (h1 : d ≠ some 1) :
    Servos.move_linear sv d = some (Servos.noopRes sv) ∧
    ServosNs.move_linear_ns sn d = ⟨sn, [], 0, none⟩ :=
  ⟨Servos.move_linear_invalid sv d h0 h1,
   ServosNs.move_linear_ns_invalid sn d h0 h1⟩

/-- C10 witness: the None demand on concrete committed channels. -/
theorem C10_witness :
    Servos.move_linear Concrete.servoC3 none = some (Servos.noopRes Concrete.servoC3) ∧
    ServosNs.move_linear_ns Concrete.servoNC10 none =
      ⟨Concrete.servoNC10, [], 0, none⟩ :=
  C10_invalid_demand_noop Concrete.servoC3 Concrete.servoNC10 none
    (by decide) (by decide)

/-- C6: on trajectory completion move_linear commits exactly the
configured target pulse width — for a committed-OFF channel with in-range
configured positions, whatever the step count, the ON move's first
emitted pulse width is the configured off pulse width and its last is
exactly the configured on pulse width, the channel commits pw = on_ns,
and the subsequent OFF move ends exactly at off_ns and returns the
channel to precisely its original state, so repeated ON/OFF cycles
accumulate no rounding drift. -/
theorem C6_exact_commit (s : Servos.Servo) (r1 r2 : Servos.MoveResult)
    (hoff1 : Servos.PW_MIN ≤ s.off_ns) (hoff2 : s.off_ns ≤ Servos.PW_MAX)
    (hon1 : Servos.PW_MIN ≤ s.on_ns) (hon2 : s.on_ns ≤ Servos.PW_MAX)
    (hstate : s.state = some Servos.OFF) (hpw : s.pw = some s.off_ns)
    (h1 : Servos.move_linear s (some Servos.ON) = some r1)
    (h2 : Servos.move_linear r1.servo (some Servos.OFF) = some r2) :
    r1.writes.head? = some s.off_ns ∧ r1.writes.getLast? = some s.on_ns ∧
    r1.servo.pw = some s.on_ns ∧ r1.servo.state = some Servos.ON ∧
    r2.writes.head? = some s.on_ns ∧ r2.writes.getLast? = some s.off_ns ∧
    r2.servo = s := by
  rw [Servos.move_linear_on s s.off_ns hstate hpw] at h1
  have e1 := Option.some.inj h1
  subst e1
  rw [Servos.move_linear_off (Servos.set_on s).1 s.on_ns rfl rfl] at h2
  have e2 := Option.some.inj h2
  subst e2
  refine ⟨?_, ?_, rfl, rfl, ?_, ?_, ?_⟩
  · show (Servos.move_servo_writes s.off_ns ++ _ ++ _).head? = some s.off_ns
    rw [Servos.move_servo_writes_eq hoff1 hoff2]
    rfl
  · show (_ ++ _ ++ Servos.move_servo_writes s.on_ns).getLast? = some s.on_ns
    rw [Servos.move_servo_writes_eq hon1 hon2]
    exact Servos.getLast?_append_single _ _
  · show (Servos.move_servo_writes s.on_ns ++ _ ++ _).head? = some s.on_ns
    rw [Servos.move_servo_writes_eq hon1 hon2]
    rfl
  · show (_ ++ _ ++ Servos.move_servo_writes s.off_ns).getLast? = some s.off_ns
    rw [Servos.move_servo_writes_eq hoff1 hoff2]
    exact Servos.getLast?_append_single _ _
  · show { s with pw := some s.off_ns, state := some Servos.OFF } = s
    obtain ⟨pin, offv, onv, rot, st, pwf, xi, xs⟩ := s
    simp only at hstate hpw
    rw [hstate, hpw]

/-- C6 witness: the exact-commit conclusions instantiated on a concrete
45/135-equivalent channel with a one-step sweep. -/
theorem C6_witness :
    Concrete.r1C6.writes.head? = some Concrete.servoC6.off_ns ∧
    Concrete.r1C6.writes.getLast? = some Concrete.servoC6.on_ns ∧
    Concrete.r1C6.servo.pw = some Concrete.servoC6.on_ns ∧
    Concrete.r1C6.servo.state = some Servos.ON ∧
    Concrete.r2C6.writes.head? = some Concrete.servoC6.on_ns ∧
    Concrete.r2C6.writes.getLast? = some Concrete.servoC6.off_ns ∧
    Concrete.r2C6.servo = Concrete.servoC6 :=
  C6_exact_commit Concrete.servoC6 Concrete.r1C6 Concrete.r2C6
    (by decide) (by decide) (by decide) (by decide) (by decide) (by decide)
    (by decide) (by decide)

namespace Servos

theorem alGet_alSet_self {g : Group} {k : Nat} {s : Servo} (h : alGet g k = some s)
    (x : Servo) : alGet (alSet g k x) k = some x := by
  induction g with
  | nil => cases h
  | cons p rest ih =>
    obtain ⟨a, b⟩ := p
    unfold alGet at h
    unfold alSet
    by_cases hak : a = k
    · rw [if_pos hak]
      unfold alGet
      rw [if_pos hak]
    · rw [if_neg hak]
      unfold alGet
      rw [if_neg hak]
      rw [if_neg hak] at h
      exact ih h

theorem alGet_alSet_ne {g : Group} {k k' : Nat} (x : Servo) (hne : k' ≠ k) :
    alGet (alSet g k x) k' = alGet g k' := by
  induction g with
  | nil => rfl
  | cons p rest ih =>
    obtain ⟨a, b⟩ := p
    unfold alSet
    by_cases hak : a = k
    · have hak' : a ≠ k' := fun hh => hne (hh ▸ hak)
      rw [if_pos hak]
      unfold alGet
      simp only [if_neg hak']
    · rw [if_neg hak]
      unfold alGet
      by_cases hak' : a = k'
      · simp only [if_pos hak']
      · simp only [if_neg hak']
        exact ih

theorem alSet_eq_of_get {g : Group} {k : Nat} {s : Servo} (h : alGet g k = some s) :
    alSet g k s = g := by
  induction g with
  | nil => rfl
  | cons p rest ih =>
    obtain ⟨a, b⟩ := p
    unfold alGet at h
    unfold alSet
    by_cases hak : a = k
    · rw [if_pos hak] at h ⊢
      cases h
      rfl
    · rw [if_neg hak] at h ⊢
      rw [ih h]

theorem update_spec (demand : List (Nat × Option Int)) (g g' : Group) (w : List Int)
    (hnodup : (demand.map Prod.fst).Nodup)
    (hrun : update g demand = some (g', w)) :
    (∀ k, k ∉ demand.map Prod.fst → alGet g' k = alGet g k) ∧
    (∀ kv s0, kv ∈ demand → alGet g kv.1 = some s0 → kv.2 = s0.state →
      alGet g' kv.1 = some s0) ∧
    (∀ kv, kv ∈ demand → ∃ s', alGet g' kv.1 = some s' ∧
      move_linear s' kv.2 = some (noopRes s')) := by
  induction demand generalizing g w with
  | nil =>
    unfold update at hrun
    have hpair := Option.some.inj hrun
    have hg : g = g' := congrArg Prod.fst hpair
    subst hg
    exact ⟨fun _ _ => rfl,
      fun kv s0 hkv => absurd hkv (List.not_mem_nil _),
      fun kv hkv => absurd hkv (List.not_mem_nil _)⟩
  | cons hd rest ih =>
    obtain ⟨k, v⟩ := hd
    obtain ⟨hknotin, hnodup'⟩ := List.nodup_cons.mp hnodup
    unfold update at hrun
    cases hget : alGet g k with
    | none =>
      rw [hget] at hrun
      cases hrun
    | some s =>
      rw [hget] at hrun
      dsimp only at hrun
      cases hml : move_linear s v with
      | none =>
        rw [hml] at hrun
        cases hrun
      | some r =>
        rw [hml] at hrun
        dsimp only at hrun
        cases hrec : update (alSet g k r.servo) rest with
        | none =>
          rw [hrec] at hrun
          cases hrun
        | some gw =>
          obtain ⟨g2, w2⟩ := gw
          rw [hrec] at hrun
          dsimp only at hrun
          have hpair := Option.some.inj hrun
          have hg : g2 = g' := congrArg Prod.fst hpair
          subst hg
          obtain ⟨ihframe, ihkeep, ihnoop⟩ := ih (alSet g k r.servo) w2 hnodup' hrec
          refine ⟨?_, ?_, ?_⟩
          · intro k0 hk0
            have hk0' : ¬(k0 = k ∨ k0 ∈ rest.map Prod.fst) := by
              simpa [List.mem_cons] using hk0
            push_neg at hk0'
            rw [ihframe k0 hk0'.2]
            exact alGet_alSet_ne _ hk0'.1
          · intro kv s0 hkv hget0 hstv
            rcases List.mem_cons.mp hkv with heq | htail
            · cases heq
              have hs : s = s0 := Option.some.inj (hget ▸ hget0)
              subst hs
              have hr : r = noopRes s := by
                have := (move_linear_eq_state s v hstv) ▸ hml
                exact (Option.some.inj this).symm
              rw [ihframe k hknotin, hr]
              rw [show (noopRes s).servo = s from rfl, alSet_eq_of_get hget]
              exact hget
            · have hne : kv.1 ≠ k := fun he =>
                hknotin (he ▸ List.mem_map.mpr ⟨kv, htail, rfl⟩)
              apply ihkeep kv s0 htail _ hstv
              rw [alGet_alSet_ne _ hne]
              exact hget0
          · intro kv hkv
            rcases List.mem_cons.mp hkv with heq | htail
            · cases heq
              refine ⟨r.servo, ?_, move_linear_second s v r hml⟩
              rw [ihframe k hknotin]
              exact alGet_alSet_self hget r.servo
            · exact ihnoop kv htail

theorem update_noop_of (demand : List (Nat × Option Int)) (h : Group)
    (hall : ∀ kv, kv ∈ demand → ∃ s', alGet h kv.1 = some s' ∧
      move_linear s' kv.2 = some (noopRes s')) :
    update h demand = some (h, []) := by
  induction demand with
  | nil => rfl
  | cons hd rest ih =>
    obtain ⟨k, v⟩ := hd
    obtain ⟨s', hget, hml⟩ := hall (k, v) (List.mem_cons_self _ _)
    unfold update
    rw [hget]
    dsimp only
    rw [hml]
    dsimp only
    rw [show (noopRes s').servo = s' from rfl, alSet_eq_of_get hget]
    rw [ih fun kv hkv => hall kv (List.mem_cons_of_mem _ hkv)]
    rfl

end Servos

/-- C7: a successful ActuatorGroup update drives only channels whose
demanded state differs from their committed logical state — channels
absent from the demand map keep their entry untouched, channels whose
demand equals their committed state keep exactly their servo record
(state, pulse width, hardware untouched), and re-running update with the
identical demand map leaves the group unchanged and emits no hardware
write at all (idempotence). -/
theorem C7_update_frame_idempotent (g g' : Servos.Group) (w : List Int)
    (demand : List (Nat × Option Int))
    (hnodup : (demand.map Prod.fst).Nodup)
    (hrun : Servos.update g demand = some (g', w)) :
    (∀ k, k ∉ demand.map Prod.fst → Servos.alGet g' k = Servos.alGet g k) ∧
    (∀ kv s0, kv ∈ demand → Servos.alGet g kv.1 = some s0 → kv.2 = s0.state →
      Servos.alGet g' kv.1 = some s0) ∧
    Servos.update g' demand = some (g', []) := by
  obtain ⟨h1, h2, h3⟩ := Servos.update_spec demand g g' w hnodup hrun
  exact ⟨h1, h2, Servos.update_noop_of demand g' h3⟩

/-- C7 witness: the idempotence conclusion instantiated on a concrete
two-channel group (one driven, one with unchanged demand). -/
theorem C7_witness :
    Servos.update Concrete.groupC7' Concrete.demandC7 =
      some (Concrete.groupC7', []) :=
  (C7_update_frame_idempotent Concrete.groupC7 Concrete.groupC7'
    [500000, 500100, 500100] Concrete.demandC7 (by decide) (by decide)).2.2

namespace Handshake

theorem exec_consumer_fields (s s' : Sys) (hex : exec s .consumerA = some s') :
    s'.previous_states = s.previous_states ∧ s'.switch_states = s.switch_states ∧
    s'.ppc = s.ppc := by
  simp only [exec] at hex
  cases hcpc : s.cpc
  all_goals rw [hcpc] at hex
  all_goals dsimp only at hex
  case setReady => cases hex; exact ⟨rfl, rfl, rfl⟩
  case waitInput =>
    by_cases hev : s.ev_input = true
    · rw [if_pos hev] at hex
      cases hex
      exact ⟨rfl, rfl, rfl⟩
    · rw [if_neg hev] at hex
      cases hex
  case clearInput => cases hex; exact ⟨rfl, rfl, rfl⟩
  case clearReady => cases hex; exact ⟨rfl, rfl, rfl⟩
  case consume => cases hex; exact ⟨rfl, rfl, rfl⟩

theorem run_no_waitOk (acts : List Act) (s s' : Sys)
    (hno : Act.waitOkA ∉ acts) (hppc : s.ppc ≠ .recording)
    (hrun : run s acts = some s') :
    s'.previous_states = s.previous_states ∧ s'.ppc ≠ .recording := by
  induction acts generalizing s with
  | nil =>
    obtain rfl := Option.some.inj hrun
    exact ⟨rfl, hppc⟩
  | cons a rest ih =>
    unfold run at hrun
    cases hex : exec s a with
    | none =>
      rw [hex] at hrun
      cases hrun
    | some s1 =>
      rw [hex] at hrun
      dsimp only at hrun
      have hno' : Act.waitOkA ∉ rest := fun h => hno (List.mem_cons_of_mem _ h)
      have hna : a ≠ Act.waitOkA := fun h => hno (h ▸ List.mem_cons_self _ _)
      have hstep : s1.previous_states = s.previous_states ∧ s1.ppc ≠ .recording := by
        cases a with
        | scanA v =>
          simp only [exec] at hex
          by_cases hc : s.ppc = .scan
          · rw [if_pos hc] at hex
            cases hex
            exact ⟨rfl, fun h => nomatch h⟩
          · rw [if_neg hc] at hex
            cases hex
        | sleepEndA =>
          simp only [exec] at hex
          by_cases hc : s.ppc = .sleeping
          · rw [if_pos hc] at hex
            cases hex
            exact ⟨rfl, fun h => nomatch h⟩
          · rw [if_neg hc] at hex
            cases hex
        | waitOkA => exact absurd rfl hna
        | recordA =>
          simp only [exec] at hex
          by_cases hc : s.ppc = .recording
          · exact absurd hc hppc
          · rw [if_neg hc] at hex
            cases hex
        | consumerA =>
          obtain ⟨hp, _, hpc⟩ := exec_consumer_fields s s1 hex
          exact ⟨hp, hpc ▸ hppc⟩
      obtain ⟨hp', hr'⟩ := ih s1 hno' hstep.2 hrun
      exact ⟨hp'.trans hstep.1, hr'⟩

theorem consumer_blocked (t : Sys) (hev : t.ev_input = false)
    (hcpc : t.cpc = .waitInput) : exec t .consumerA = none := by
  unfold exec
  rw [hcpc]
  dsimp only
  rw [hev]
  rfl

theorem exec_scan_inv (s s' : Sys) (a : Act)
    (hinv : s.ppc = .scan → s.switch_states = none ∨ s.previous_states = s.switch_states)
    (hex : exec s a = some s') :
    s'.ppc = .scan → s'.switch_states = none ∨ s'.previous_states = s'.switch_states := by
  cases a with
  | scanA v =>
    simp only [exec] at hex
    by_cases hc : s.ppc = .scan
    · rw [if_pos hc] at hex
      cases hex
      intro h
      cases h
    · rw [if_neg hc] at hex
      cases hex
  | sleepEndA =>
    simp only [exec] at hex
    by_cases hc : s.ppc = .sleeping
    · rw [if_pos hc] at hex
      cases hex
      intro h
      cases h
    · rw [if_neg hc] at hex
      cases hex
  | waitOkA =>
    simp only [exec] at hex
    by_cases hc : s.ppc = .waitReady ∧ s.ev_consumer_ready = true
    · rw [if_pos hc] at hex
      cases hex
      intro h
      cases h
    · rw [if_neg hc] at hex
      cases hex
  | recordA =>
    simp only [exec] at hex
    by_cases hc : s.ppc = .recording
    · rw [if_pos hc] at hex
      cases hex
      intro _
      exact Or.inr rfl
    · rw [if_neg hc] at hex
      cases hex
  | consumerA =>
    obtain ⟨hp, hs, hpc⟩ := exec_consumer_fields s s' hex
    intro h
    rw [hp, hs]
    exact hinv (hpc ▸ h)

theorem run_scan_inv (acts : List Act) (s s' : Sys)
    (hinv : s.ppc = .scan → s.switch_states = none ∨ s.previous_states = s.switch_states)
    (hrun : run s acts = some s') :
    s'.ppc = .scan → s'.switch_states = none ∨ s'.previous_states = s'.switch_states := by
  induction acts generalizing s with
  | nil =>
    obtain rfl := Option.some.inj hrun
    exact hinv
  | cons a rest ih =>
    unfold run at hrun
    cases hex : exec s a with
    | none =>
      rw [hex] at hrun
      cases hrun
    | some s1 =>
      rw [hex] at hrun
      dsimp only at hrun
      exact ih s1 (exec_scan_inv s s1 a hinv hex) hrun

end Handshake

/-- C1: in the switches_as.py producer loop, the delivered-snapshot
record _previous_states changes only at the recording step, the
recording step is reachable only by completing the ev_consumer_ready
wait while the consumer-ready event is set, and in any schedule in which
no such wait ever completes the delivered record is never overwritten —
so the producer never records a scanned snapshot as delivered before the
consumer has raised consumerReady. -/
theorem C1_handshake_delivery_gate :
    (∀ (s : Handshake.Sys) (a : Handshake.Act) (s' : Handshake.Sys),
        Handshake.exec s a = some s' →
        s'.previous_states ≠ s.previous_states →
        a = .recordA ∧ s.ppc = .recording) ∧
    (∀ (s : Handshake.Sys) (a : Handshake.Act) (s' : Handshake.Sys),
        Handshake.exec s a = some s' → s'.ppc = .recording →
        s.ppc ≠ .recording →
        a = .waitOkA ∧ s.ppc = .waitReady ∧ s.ev_consumer_ready = true) ∧
    (∀ (acts : List Handshake.Act) (s' : Handshake.Sys),
        Handshake.Act.waitOkA ∉ acts →
        Handshake.run Handshake.init acts = some s' →
        s'.previous_states = none) := by
  refine ⟨?_, ?_, ?_⟩
  · intro s a s' hex hne
    cases a with
    | scanA v =>
      simp only [Handshake.exec] at hex
      by_cases hc : s.ppc = .scan
      · rw [if_pos hc] at hex
        cases hex
        exact absurd rfl hne
      · rw [if_neg hc] at hex
        cases hex
    | sleepEndA =>
      simp only [Handshake.exec] at hex
      by_cases hc : s.ppc = .sleeping
      · rw [if_pos hc] at hex
        cases hex
        exact absurd rfl hne
      · rw [if_neg hc] at hex
        cases hex
    | waitOkA =>
      simp only [Handshake.exec] at hex
      by_cases hc : s.ppc = .waitReady ∧ s.ev_consumer_ready = true
      · rw [if_pos hc] at hex
        cases hex
        exact absurd rfl hne
      · rw [if_neg hc] at hex
        cases hex
    | recordA =>
      simp only [Handshake.exec] at hex
      by_cases hc : s.ppc = .recording
      · exact ⟨rfl, hc⟩
      · rw [if_neg hc] at hex
        cases hex
    | consumerA =>
      obtain ⟨hp, _, _⟩ := Handshake.exec_consumer_fields s s' hex
      exact absurd hp hne
  · intro s a s' hex hrec hne
    cases a with
    | scanA v =>
      simp only [Handshake.exec] at hex
      by_cases hc : s.ppc = .scan
      · rw [if_pos hc] at hex
        cases hex
        cases hrec
      · rw [if_neg hc] at hex
        cases hex
    | sleepEndA =>
      simp only [Handshake.exec] at hex
      by_cases hc : s.ppc = .sleeping
      · rw [if_pos hc] at hex
        cases hex
        cases hrec
      · rw [if_neg hc] at hex
        cases hex
    | waitOkA =>
      simp only [Handshake.exec] at hex
      by_cases hc : s.ppc = .waitReady ∧ s.ev_consumer_ready = true
      · exact ⟨rfl, hc.1, hc.2⟩
      · rw [if_neg hc] at hex
        cases hex
    | recordA =>
      simp only [Handshake.exec] at hex
      by_cases hc : s.ppc = .recording
      · exact absurd hc hne
      · rw [if_neg hc] at hex
        cases hex
    | consumerA =>
      obtain ⟨_, _, hpc⟩ := Handshake.exec_consumer_fields s s' hex
      exact absurd (hpc ▸ hrec) hne
  · intro acts s' hno hrun
    exact (Handshake.run_no_waitOk acts Handshake.init s' hno (by decide) hrun).1

/-- C1 witness: a schedule with no completed consumerReady wait leaves
the delivered record untouched. -/
theorem C1_witness : ConcreteHs.sC1.previous_states = none :=
  C1_handshake_delivery_gate.2.2 ConcreteHs.actsC1 ConcreteHs.sC1
    (by decide) (by decide)

/-- C2 counterexample: in HwSwitchGroup.poll_switches of
switches_as_p.py the producer raises ev_input unconditionally every
cycle: after a full delivery of the snapshot [(16,0)] has been consumed
and acknowledged (sP1, ev_input cleared), rescanning the identical
snapshot raises ev_input again (sP2), contradicting the claim that two
identical consecutive reads never raise dataReady. -/
theorem C2_cex :
    HandshakeP.run HandshakeP.init ConcreteHsP.actsP1 = some ConcreteHsP.sP1 ∧
    ConcreteHsP.sP1.switch_states = some [(16, 0)] ∧
    ConcreteHsP.sP1.ev_input = false ∧
    HandshakeP.run ConcreteHsP.sP1
      [.sleepEndA, .scanA [(16, 0)], .waitOkA, .signalA] = some ConcreteHsP.sP2 ∧
    ConcreteHsP.sP2.switch_states = some [(16, 0)] ∧
    ConcreteHsP.sP2.ev_input = true := by
  decide

/-- C2 amended: in SwitchGroup.poll_switches of switches_as.py the claim
holds — a scan returning the same snapshot as the last one scanned (and
hence, by the loop invariant, the same as the last one the producer
delivered) leaves ev_input exactly as it was, and while ev_input is
clear the consumer waiting on it cannot proceed to its update; the
switches_as_p.py variant instead raises ev_input on every cycle. -/
theorem C2_no_raise_on_identical (s s' : Handshake.Sys) (v : Handshake.Snap)
    (hreach : Handshake.Reachable s) (hlast : s.switch_states = some v)
    (hstep : Handshake.exec s (.scanA v) = some s') :
    s'.ev_input = s.ev_input ∧
    (s'.ev_input = false → s'.cpc = .waitInput →
      Handshake.exec s' .consumerA = none) := by
  obtain ⟨acts, hrun⟩ := hreach
  have hinv :=
    Handshake.run_scan_inv acts Handshake.init s (fun _ => Or.inl rfl) hrun
  simp only [Handshake.exec] at hstep
  by_cases hc : s.ppc = .scan
  · rw [if_pos hc] at hstep
    rcases hinv hc with hnone | hprev
    · rw [hlast] at hnone
      cases hnone
    · have hne : ¬(some v ≠ s.previous_states) := by
        rw [hprev, hlast]
        exact fun h => h rfl
      cases hstep
      refine ⟨?_, ?_⟩
      · show (if some v ≠ s.previous_states then true else s.ev_input) = s.ev_input
        rw [if_neg hne]
      · intro hev hcpc
        exact Handshake.consumer_blocked _ hev hcpc
  · rw [if_neg hc] at hstep
    cases hstep

/-- C2 witness: the no-raise conclusion instantiated after one full
delivered cycle of the snapshot [(16,0)]. -/
theorem C2_witness :
    ConcreteHs.sC2'.ev_input = ConcreteHs.sC2.ev_input ∧
    (ConcreteHs.sC2'.ev_input = false →
      ConcreteHs.sC2'.cpc = Handshake.CPc.waitInput →
      Handshake.exec ConcreteHs.sC2' .consumerA = none) :=
  C2_no_raise_on_identical ConcreteHs.sC2 ConcreteHs.sC2' [(16, 0)]
    ⟨ConcreteHs.actsC2, by decide⟩ (by decide) (by decide)

/-- C8 counterexample: in the HttpSwitches.serve_client variant of
as_sw_input.py there is no form/session token check at all, and a
well-formed '/data' request whose parameter key does not name a known
switch raises an exception (ValueError from int(key[1:]) for 'x',
IndexError from the switch-list write for 'V9') instead of being
ignored: serve_client crashes (none) where the claim requires a normal
return with the unknown key skipped.  The third conjunct shows a
token-less request mutating state, i.e. no authentication exists to
reject. -/
theorem C8_cex :
    AsSwInput.serve_client [0, 0, 0, 0] ("/data?x=1".data) = none ∧
    AsSwInput.serve_client [0, 0, 0, 0] ("/data?V9=1".data) = none ∧
    AsSwInput.serve_client [0, 0, 0, 0] ("/data?V0=1".data) =
      some ([1, 0, 0, 0], true) := by
  decide

/-- C8 amended: in the http_as.py HttpServer.serve_client variant the
claim holds — a request with an unrecognized path is answered with the
not-valid form, mutating nothing and never setting ev_input; a '/data'
request whose '_id' token is present but wrong is likewise rejected
without mutation or event; a '/data' request with no '_id' token, or one
whose parameter list does not parse, raises before any mutation (states
and ev_input unchanged); and a parameter key that is not a known
virtual-switch key is skipped outright by set_v_switches.  In the
as_sw_input.py variant there is no token check and unrecognized keys
raise instead of being ignored. -/
theorem C8_amended_reject_without_mutation (keys : List PyStrOps.PyStr)
    (form_id : PyStrOps.PyStr) (states : List (PyStrOps.PyStr × Int))
    (ev : Bool) (request : PyStrOps.PyStr) :
    (PyStrOps.pyStartsWith request ("/data".data) = false →
     PyStrOps.pyStartsWith request ("/form".data) = false →
     HttpAs.parse_request keys form_id states ev request = .ok states ev false) ∧
    (∀ params fid, PyStrOps.pyStartsWith request ("/data".data) = true →
       HttpAs.parse_parameters request = some params →
       PyStrOps.pyDictGet params ("_id".data) = some fid → fid ≠ form_id →
       HttpAs.parse_request keys form_id states ev request = .ok states ev false) ∧
    (∀ params, PyStrOps.pyStartsWith request ("/data".data) = true →
       HttpAs.parse_parameters request = some params →
       PyStrOps.pyDictGet params ("_id".data) = none →
       HttpAs.parse_request keys form_id states ev request = .err states ev) ∧
    (PyStrOps.pyStartsWith request ("/data".data) = true →
       HttpAs.parse_parameters request = none →
       HttpAs.parse_request keys form_id states ev request = .err states ev) ∧
    (∀ (k v : PyStrOps.PyStr) (ps : List (PyStrOps.PyStr × PyStrOps.PyStr)),
       keys.contains k = false →
       HttpAs.set_v_switches keys states ((k, v) :: ps) =
         HttpAs.set_v_switches keys states ps) := by
  refine ⟨?_, ?_, ?_, ?_, ?_⟩
  · intro h1 h2
    unfold HttpAs.parse_request
    rw [h1, h2]
    rfl
  · intro params fid hstart hparams hfid hne
    unfold HttpAs.parse_request
    rw [hstart, if_pos rfl, hparams]
    dsimp only
    rw [hfid]
    dsimp only
    rw [if_neg hne]
  · intro params hstart hparams hfid
    unfold HttpAs.parse_request
    rw [hstart, if_pos rfl, hparams]
    dsimp only
    rw [hfid]
  · intro hstart hparams
    unfold HttpAs.parse_request
    rw [hstart, if_pos rfl, hparams]
  · intro k v ps h
    simp only [HttpAs.set_v_switches]
    rw [h, if_neg (by decide : ¬(false = true))]

/-- C8 witness: the unrecognized-path rejection and the unknown-key skip
instantiated on a concrete one-switch server. -/
theorem C8_witness :
    HttpAs.parse_request ["V0".data] ("form99".data) [("V0".data, 0)] false
      ("/other".data) = .ok [("V0".data, 0)] false false ∧
    HttpAs.set_v_switches ["V0".data] [("V0".data, 0)]
      [("zz".data, "7".data)] = ([("V0".data, 0)], true) :=
  ⟨(C8_amended_reject_without_mutation ["V0".data] ("form99".data)
      [("V0".data, 0)] false ("/other".data)).1 (by decide) (by decide),
   (C8_amended_reject_without_mutation ["V0".data] ("form99".data)
      [("V0".data, 0)] false ("/other".data)).2.2.2.2 ("zz".data) ("7".data) []
      (by decide)⟩
